import Mathlib

/-!
Verification of the RTTM reflection-code generator
(`cmake/generate_reflection.py`): a shallow embedding of the
extraction-and-synthesis pipeline (access-visibility resolution, type
collection, member extraction, type-name correction, enum processing,
registration synthesis and exit codes) together with proofs about it.

The clang cursor graph is the external declaration-graph provider; cursor
attributes read from it (kind, spelling, displayname, access specifier of
an access marker, staticness, type spellings, scopedness, file
externality) are modelled as fields of the embedded node records, and the
Python container operations (dict assignment, `set.add`, `defaultdict`
append, `sorted`, `str` manipulation) are modelled by executable
functions below that mirror their semantics.
-/

/-- Cursor kinds of the declaration graph (the subset of
`clang.cindex.CursorKind` the generator inspects). -/
inductive CursorKind
  | TRANSLATION_UNIT
  | NAMESPACE
  | CLASS_DECL
  | STRUCT_DECL
  | ENUM_DECL
  | FIELD_DECL
  | CXX_METHOD
  | CONSTRUCTOR
  | CXX_ACCESS_SPEC_DECL
  | ENUM_CONSTANT_DECL
  | CLASS_TEMPLATE
  | TEMPLATE_TYPE_PARAMETER
  | TEMPLATE_NON_TYPE_PARAMETER
  | OTHER
  deriving DecidableEq, Repr

/-- Access specifiers (`clang.cindex.AccessSpecifier`). -/
inductive AccessSpecifier
  | PUBLIC
  | PROTECTED
  | PRIVATE
  deriving DecidableEq, Repr

/-! String utilities mirroring the Python `str` operations used by the
generator, implemented over `List Char` so that everything reduces in the
kernel. -/

/-- Python `str.strip()` on a character list (whitespace both ends). -/
def listTrim (s : List Char) : List Char :=
  ((s.dropWhile Char.isWhitespace).reverse.dropWhile Char.isWhitespace).reverse

/-- Python `str.strip()`. -/
def strTrim (s : String) : String := ⟨listTrim s.data⟩

/-- Python `str.startswith`. -/
def strStarts (s p : String) : Bool := p.data.isPrefixOf s.data

/-- Python `str.endswith`. -/
def strEnds (s p : String) : Bool := p.data.isSuffixOf s.data

/-- Python slicing `s[n:]`. -/
def strDrop (s : String) (n : Nat) : String := ⟨s.data.drop n⟩

/-- Python slicing `s[:-n]`. -/
def strDropRight (s : String) (n : Nat) : String :=
  ⟨s.data.take (s.data.length - n)⟩

/-- Occurrence of the character run `p` somewhere inside `s`. -/
def containsRun (p : List Char) : List Char → Bool
  | [] => p.isPrefixOf []
  | c :: rest => p.isPrefixOf (c :: rest) || containsRun p rest

/-- Python `pat in s` substring test. -/
def strContains (s pat : String) : Bool := containsRun pat.data s.data

/-- Concatenation of a list of written strings (sequential `f.write` /
`+=` accumulation). -/
def strJoin : List String → String
  | [] => ""
  | x :: rest => x ++ strJoin rest

/-- Python `sep.join(parts)`. -/
def joinSep (sep : String) : List String → String
  | [] => ""
  | [x] => x
  | x :: y :: rest => x ++ sep ++ joinSep sep (y :: rest)

/-- Helper for Python `s.split("::")[-1]`: the text after the last
non-overlapping left-to-right occurrence of `::`. -/
def lastCompAux : List Char → List Char → List Char
  | acc, [] => acc
  | acc, [c] => acc ++ [c]
  | acc, c :: c2 :: rest =>
    if c = ':' ∧ c2 = ':' then lastCompAux [] rest
    else lastCompAux (acc ++ [c]) (c2 :: rest)

/-- Python `s.split("::")[-1]`. -/
def split_last (s : String) : String := ⟨lastCompAux [] s.data⟩

/-- Python `s.split("<")[0]`. -/
def takeBeforeLt (s : String) : String :=
  ⟨s.data.takeWhile (fun c => c != '<')⟩

/-- Code-point comparison on character lists: the order Python `sorted`
uses on strings. -/
def listCharLe : List Char → List Char → Bool
  | [], _ => true
  | _ :: _, [] => false
  | a :: as, b :: bs =>
    if a.toNat < b.toNat then true
    else if b.toNat < a.toNat then false
    else listCharLe as bs

/-- String order used by Python `sorted` over strings. -/
def strLe (a b : String) : Bool := listCharLe a.data b.data

/-- Insertion into a sorted list (model of Python `sorted`). -/
def insertLe {α : Type} (le : α → α → Bool) (x : α) : List α → List α
  | [] => [x]
  | y :: rest => if le x y then x :: y :: rest else y :: insertLe le x rest

/-- Insertion sort (model of Python `sorted`): stable, total order given
a total comparison. -/
def sortLe {α : Type} (le : α → α → Bool) : List α → List α
  | [] => []
  | x :: rest => insertLe le x (sortLe le rest)

/-- Python `sorted` over a collection of strings. -/
def sortStr (l : List String) : List String := sortLe strLe l

/-! The embedded declaration-graph records. -/

/-- A direct child of an aggregate as the generator reads it: one flat
record per cursor with the attributes the generator consults.  `id`
models cursor identity (the `child == cursor` comparison);
`access_specifier` is meaningful for `CXX_ACCESS_SPEC_DECL` markers;
`field_type` models `get_fully_qualified_type(member.type)` for fields;
`result_type`/`param_types` model the clang type spellings for methods
and constructors. -/
structure Child where
  kind : CursorKind
  id : Nat
  spelling : String
  access_specifier : AccessSpecifier
  storage_static : Bool
  is_static_method_flag : Bool
  is_const_method : Bool
  field_type : String
  result_type : String
  param_types : List String
  deriving DecidableEq, Repr

/-- A node of the ancestor chain used by `is_truly_public`: its kind, its
cursor identity, and its direct children (for the access scan). -/
structure ChainNode where
  kind : CursorKind
  id : Nat
  children : List Child
  deriving DecidableEq, Repr

/-! Access-Visibility Resolver (`get_effective_access`,
`is_truly_public`). -/

/-- The scan inside `get_effective_access`: walk the parent's direct
children in declaration order, updating the running access state at each
access-specifier marker, and stop with the current state when the target
cursor is reached; `none` when the target is never found. -/
def scan_access (children : List Child) (target : Nat)
    (current : AccessSpecifier) : Option AccessSpecifier :=
  match children with
  | [] => none
  | c :: rest =>
    if c.kind = CursorKind.CXX_ACCESS_SPEC_DECL then
      scan_access rest target c.access_specifier
    else if c.id = target then some current
    else scan_access rest target current

/-- `get_effective_access`: `PUBLIC` when there is no parent or the
parent is not a class/struct aggregate; otherwise scan the parent's
children with the state seeded `PRIVATE` for a class parent and `PUBLIC`
for a struct parent, returning the parent's default access when the
target is never found. -/
def get_effective_access (parent_kind : Option CursorKind)
    (children : List Child) (target : Nat) : AccessSpecifier :=
  match parent_kind with
  | none => AccessSpecifier.PUBLIC
  | some k =>
    if k ≠ CursorKind.CLASS_DECL ∧ k ≠ CursorKind.STRUCT_DECL then
      AccessSpecifier.PUBLIC
    else
      let current :=
        if k = CursorKind.CLASS_DECL then AccessSpecifier.PRIVATE
        else AccessSpecifier.PUBLIC
      match scan_access children target current with
      | some a => a
      | none =>
        if k = CursorKind.CLASS_DECL then AccessSpecifier.PRIVATE
        else AccessSpecifier.PUBLIC

/-- The default access of an aggregate kind (`PRIVATE` for `class`,
`PUBLIC` otherwise). -/
def default_access (k : CursorKind) : AccessSpecifier :=
  if k = CursorKind.CLASS_DECL then AccessSpecifier.PRIVATE
  else AccessSpecifier.PUBLIC

/-- The access state after scanning a prefix of children: last
access-specifier marker wins, seeded with the default. -/
def accessAfter (seed : AccessSpecifier) (pre : List Child) : AccessSpecifier :=
  pre.foldl
    (fun s c =>
      if c.kind = CursorKind.CXX_ACCESS_SPEC_DECL then c.access_specifier
      else s)
    seed

/-- The kinds at which `is_truly_public` checks effective access. -/
def isAggregateKind (k : CursorKind) : Bool :=
  k == CursorKind.CLASS_DECL || k == CursorKind.STRUCT_DECL ||
    k == CursorKind.ENUM_DECL

/-- Effective access of a chain node given its parent in the chain (the
translation unit / absent parent is `none`). -/
def effective_access_in_chain (n : ChainNode) (p : Option ChainNode) :
    AccessSpecifier :=
  get_effective_access (p.map ChainNode.kind)
    ((p.map ChainNode.children).getD []) n.id

/-- `is_truly_public` over the ancestor chain of a declaration (the
declaration itself first, then its semantic parents, ending just below
the translation unit): at every class/struct/enum node the effective
access must be `PUBLIC`, otherwise the walk fails immediately. -/
def is_truly_public : List ChainNode → Bool
  | [] => true
  | n :: rest =>
    if isAggregateKind n.kind then
      if effective_access_in_chain n rest.head? ≠ AccessSpecifier.PUBLIC then
        false
      else is_truly_public rest
    else is_truly_public rest

/-- Each chain node paired with its parent in the chain. -/
def chainPairs : List ChainNode → List (ChainNode × Option ChainNode)
  | [] => []
  | n :: rest => (n, rest.head?) :: chainPairs rest

lemma is_truly_public_iff (chain : List ChainNode) :
    is_truly_public chain = true ↔
      ∀ p ∈ chainPairs chain, isAggregateKind p.1.kind = true →
        effective_access_in_chain p.1 p.2 = AccessSpecifier.PUBLIC := by
  induction chain with
  | nil => simp [is_truly_public, chainPairs]
  | cons n rest ih =>
    by_cases hAgg : isAggregateKind n.kind = true
    · by_cases hAcc :
        effective_access_in_chain n rest.head? = AccessSpecifier.PUBLIC
      · simp [is_truly_public, chainPairs, hAgg, hAcc, ih]
      · simp [is_truly_public, chainPairs, hAgg, hAcc]
    · simp [is_truly_public, chainPairs, hAgg, ih]

/-- C1: `is_truly_public` walks the chain from the declaration up
through its semantic parents to the translation unit; it returns `true`
exactly when every node in the chain that is a class, struct or enum
declaration has `PUBLIC` effective access, and in particular a
declaration nested inside a non-publicly-accessed aggregate (anywhere in
its proper ancestor chain) is never truly public, regardless of its own
declared specifier. -/
theorem C1_truly_public_chain :
    ∀ chain : List ChainNode,
      (is_truly_public chain = true ↔
        ∀ p ∈ chainPairs chain, isAggregateKind p.1.kind = true →
          effective_access_in_chain p.1 p.2 = AccessSpecifier.PUBLIC) ∧
      (∀ d rest, chain = d :: rest →
        ∀ q ∈ chainPairs rest, isAggregateKind q.1.kind = true →
          effective_access_in_chain q.1 q.2 ≠ AccessSpecifier.PUBLIC →
          is_truly_public chain = false) := by
  intro chain
  refine ⟨is_truly_public_iff chain, ?_⟩
  rintro d rest rfl q hq hAggQ hAccQ
  by_cases h2 : is_truly_public (d :: rest) = true
  · exact absurd
      ((is_truly_public_iff (d :: rest)).mp h2 q
        (List.mem_cons_of_mem _ hq) hAggQ) hAccQ
  · simpa using h2

/-- Example access-specifier marker `public:` (cursor id 10). -/
def exMarkerPub : Child :=
  ⟨CursorKind.CXX_ACCESS_SPEC_DECL, 10, "", AccessSpecifier.PUBLIC,
    false, false, false, "", "", []⟩

/-- Example nested declaration `D` (cursor id 1) as a child entry. -/
def exChildD : Child :=
  ⟨CursorKind.CLASS_DECL, 1, "D", AccessSpecifier.PRIVATE,
    false, false, false, "", "", []⟩

/-- Example nested aggregate `A` (cursor id 2) as a child entry. -/
def exChildA : Child :=
  ⟨CursorKind.CLASS_DECL, 2, "A", AccessSpecifier.PRIVATE,
    false, false, false, "", "", []⟩

/-- Chain node for `D`, declared after a `public:` marker inside `A`. -/
def exD : ChainNode := ⟨CursorKind.CLASS_DECL, 1, []⟩

/-- Chain node for `A`: contains a `public:` marker then `D`. -/
def exA : ChainNode := ⟨CursorKind.CLASS_DECL, 2, [exMarkerPub, exChildD]⟩

/-- Chain node for the outer class: contains `A` in its default-private
region. -/
def exOuter : ChainNode := ⟨CursorKind.CLASS_DECL, 3, [exChildA]⟩

/-- Witness for C1: `D` is declared `public` inside `A`, but `A` sits in
the private region of its enclosing class, so the whole chain fails. -/
theorem C1_witness : is_truly_public [exD, exA, exOuter] = false :=
  (C1_truly_public_chain [exD, exA, exOuter]).2 exD [exA, exOuter] rfl
    (exA, some exOuter) (by decide) (by decide) (by decide)

lemma scan_access_found (target : Nat) (c : Child) (post : List Child)
    (hc : c.kind ≠ CursorKind.CXX_ACCESS_SPEC_DECL) (hid : c.id = target) :
    ∀ (pre : List Child) (seed : AccessSpecifier),
      (∀ x ∈ pre, x.kind ≠ CursorKind.CXX_ACCESS_SPEC_DECL → x.id ≠ target) →
      scan_access (pre ++ c :: post) target seed =
        some (accessAfter seed pre) := by
  intro pre
  induction pre with
  | nil =>
    intro seed _
    simp [scan_access, hc, hid, accessAfter]
  | cons x pre ih =>
    intro seed hpre
    by_cases hx : x.kind = CursorKind.CXX_ACCESS_SPEC_DECL
    · simpa [scan_access, hx, accessAfter] using
        ih x.access_specifier (fun y hy => hpre y (List.mem_cons_of_mem _ hy))
    · have hxid : x.id ≠ target := hpre x (List.mem_cons_self _ _) hx
      simpa [scan_access, hx, hxid, accessAfter] using
        ih seed (fun y hy => hpre y (List.mem_cons_of_mem _ hy))

lemma scan_access_not_found (target : Nat) :
    ∀ (children : List Child),
      (∀ x ∈ children, x.kind ≠ CursorKind.CXX_ACCESS_SPEC_DECL →
        x.id ≠ target) →
      ∀ seed, scan_access children target seed = none := by
  intro children
  induction children with
  | nil => intro _ seed; simp [scan_access]
  | cons x rest ih =>
    intro h seed
    by_cases hx : x.kind = CursorKind.CXX_ACCESS_SPEC_DECL
    · simpa [scan_access, hx] using
        ih (fun y hy => h y (List.mem_cons_of_mem _ hy)) x.access_specifier
    · have hxid : x.id ≠ target := h x (List.mem_cons_self _ _) hx
      simpa [scan_access, hx, hxid] using
        ih (fun y hy => h y (List.mem_cons_of_mem _ hy)) seed

/-- C2: `get_effective_access` returns `PUBLIC` whenever the semantic
parent is absent or not a class/struct aggregate; for a class/struct
parent it scans the direct children in declaration order with the state
seeded to the parent's default access (`PRIVATE` for class, `PUBLIC` for
struct), updated at each access-specifier marker, returning the state
current when the target is reached, and the parent's default access if
the target never occurs among the direct children. -/
theorem C2_effective_access :
    (∀ children target,
      get_effective_access none children target = AccessSpecifier.PUBLIC) ∧
    (∀ k children target, k ≠ CursorKind.CLASS_DECL →
      k ≠ CursorKind.STRUCT_DECL →
      get_effective_access (some k) children target =
        AccessSpecifier.PUBLIC) ∧
    (∀ k (c : Child) pre post target,
      (k = CursorKind.CLASS_DECL ∨ k = CursorKind.STRUCT_DECL) →
      c.kind ≠ CursorKind.CXX_ACCESS_SPEC_DECL → c.id = target →
      (∀ x ∈ pre, x.kind ≠ CursorKind.CXX_ACCESS_SPEC_DECL →
        x.id ≠ target) →
      get_effective_access (some k) (pre ++ c :: post) target =
        accessAfter (default_access k) pre) ∧
    (∀ k children target,
      (k = CursorKind.CLASS_DECL ∨ k = CursorKind.STRUCT_DECL) →
      (∀ x ∈ children, x.kind ≠ CursorKind.CXX_ACCESS_SPEC_DECL →
        x.id ≠ target) →
      get_effective_access (some k) children target = default_access k) := by
  refine ⟨?_, ?_, ?_, ?_⟩
  · intro children target; rfl
  · intro k children target h1 h2
    simp [get_effective_access, h1, h2]
  · intro k c pre post target hk hc hid hpre
    have hscan := scan_access_found target c post hc hid pre
      (default_access k) hpre
    rcases hk with hk | hk <;>
      simp [get_effective_access, hk, default_access, hscan,
        default_access] at hscan ⊢ <;>
      simp [hscan]
  · intro k children target hk h
    have hscan := scan_access_not_found target children h (default_access k)
    rcases hk with hk | hk <;>
      simp [get_effective_access, hk, default_access] at hscan ⊢ <;>
      simp [hscan]

/-- Witness for C2: inside a class, a field that follows a `public:`
marker gets the scanned state (which evaluates to `PUBLIC`). -/
theorem C2_witness :
    get_effective_access (some CursorKind.CLASS_DECL)
        ([exMarkerPub] ++ exChildD :: []) 1 =
      accessAfter (default_access CursorKind.CLASS_DECL) [exMarkerPub] :=
  C2_effective_access.2.2.1 CursorKind.CLASS_DECL exChildD [exMarkerPub]
    [] 1 (Or.inl rfl) (by decide) (by decide) (by decide)

/-! Type Collector and Member Extractor data model. -/

/-- A class/struct/enum cursor as the generator reads it, with its
semantic-parent chain flattened into `ancestors` (innermost parent
first, ending just below the translation unit; each entry is the
parent's kind and spelling).  `is_external` models the
`is_external_type` file-membership test (location/normpath data from the
provider); `enum_type_spelling` models `cursor.enum_type.spelling`
(absent when the provider raises). -/
structure Node where
  kind : CursorKind
  spelling : String
  displayname : String
  is_external : Bool
  is_scoped_enum : Bool
  enum_type_spelling : Option String
  ancestors : List (CursorKind × String)
  children : List Child
  deriving DecidableEq, Repr

/-- `is_template_class`: a `CLASS_TEMPLATE` cursor, or a spelling with
angle brackets that still exposes raw template-parameter children. -/
def is_template_class (node : Node) : Bool :=
  if node.kind = CursorKind.CLASS_TEMPLATE then true
  else if strContains node.spelling "<" && strContains node.spelling ">" then
    node.children.any (fun ch =>
      ch.kind == CursorKind.TEMPLATE_TYPE_PARAMETER ||
      ch.kind == CursorKind.TEMPLATE_NON_TYPE_PARAMETER)
  else false

/-- `is_template_specialization`: not a generic template, but the
display name carries template arguments. -/
def is_template_specialization (node : Node) : Bool :=
  if is_template_class node then false
  else strContains node.displayname "<" && strContains node.displayname ">"

/-- `get_qualified_name`: the declaration's own name (display form for a
template specialization) prefixed by every named, non-anonymous ancestor,
joined with `::`. -/
def get_qualified_name (node : Node) : String :=
  let own :=
    if is_template_specialization node then node.displayname
    else node.spelling
  let parts :=
    (node.ancestors.filter
      (fun p => !(p.2 == "") && !(strContains p.2 "unnamed"))).map Prod.snd
  joinSep "::" (parts.reverse ++ [own])

/-- `get_namespace_path`: the named namespaces enclosing the
declaration, collected only while the parent chain consists of namespace
cursors, joined with `::` (empty for global or class-nested scope). -/
def get_namespace_path (node : Node) : String :=
  let nss :=
    ((node.ancestors.takeWhile (fun p => p.1 == CursorKind.NAMESPACE)).filter
      (fun p => !(p.2 == ""))).map Prod.snd
  joinSep "::" nss.reverse

/-- `is_static_member`: storage class for fields, `is_static_method` for
methods, `False` otherwise. -/
def is_static_member (m : Child) : Bool :=
  if m.kind = CursorKind.FIELD_DECL then m.storage_static
  else if m.kind = CursorKind.CXX_METHOD then m.is_static_method_flag
  else false

/-- Textual external-type test: some name recorded in `externalTypes`
occurs inside the type spelling. -/
def type_has_external (external_types : List String) (t : String) : Bool :=
  external_types.any (fun e => strContains t e)

/-- A collected method candidate (name, raw return type, raw parameter
types, const flag). -/
structure MethodInfo where
  name : String
  return_type_orig : String
  param_types_orig : List String
  is_const : Bool
  deriving DecidableEq, Repr

/-- One step of the member-collection loop in `process_class`: keep only
public non-static members; fields become properties unless their type
references an external type; methods are kept unless constructor-like,
destructor-like, or typed with an external type; constructors are kept
unless a parameter type references an external type. -/
def member_step (external_types : List String) (class_name : String)
    (parent_kind : CursorKind) (children : List Child)
    (acc : List String × List MethodInfo × List (List String))
    (member : Child) :
    List String × List MethodInfo × List (List String) :=
  let access := get_effective_access (some parent_kind) children member.id
  if access = AccessSpecifier.PUBLIC ∧ is_static_member member = false then
    if member.kind = CursorKind.FIELD_DECL then
      if type_has_external external_types member.field_type then acc
      else (acc.1 ++ [member.spelling], acc.2.1, acc.2.2)
    else if member.kind = CursorKind.CXX_METHOD then
      if member.spelling ≠ class_name ∧ strStarts member.spelling "~" = false
      then
        if type_has_external external_types member.result_type ||
            member.param_types.any (type_has_external external_types) then acc
        else
          (acc.1,
            acc.2.1 ++
              [⟨member.spelling, member.result_type, member.param_types,
                member.is_const_method⟩],
            acc.2.2)
      else acc
    else if member.kind = CursorKind.CONSTRUCTOR then
      if member.param_types.any (type_has_external external_types) then acc
      else (acc.1, acc.2.1, acc.2.2 ++ [member.param_types])
    else acc
  else acc

/-- The member-collection loop of `process_class` over the class's
direct children: surviving properties, methods and constructors, in
declaration order. -/
def collect_members (external_types : List String) (class_name : String)
    (parent_kind : CursorKind) (children : List Child) :
    List String × List MethodInfo × List (List String) :=
  children.foldl (member_step external_types class_name parent_kind children)
    ([], [], [])

/-! Type-name correction. -/

/-- Step 1 of `correct_type_name`: strip a leading `const ` token,
returning the prefix to reapply and the remaining (stripped) text. -/
def strip_const_pre (s : String) : String × String :=
  if strStarts s "const " then ("const ", strTrim (strDrop s 6))
  else ("", s)

/-- Step 2 of `correct_type_name`: strip one trailing `&&`, `&` or `*`
(checked in that order), returning the core token and the suffix to
reapply. -/
def strip_ref_suf (s : String) : String × String :=
  if strEnds s "&&" then (strTrim (strDropRight s 2), "&&")
  else if strEnds s "&" then (strTrim (strDropRight s 1), "&")
  else if strEnds s "*" then (strTrim (strDropRight s 1), "*")
  else (s, "")

/-- The core token remaining after stripping the `const ` prefix and one
trailing reference/pointer qualifier. -/
def correct_core (s : String) : String :=
  (strip_ref_suf (strip_const_pre s).2).1

/-- `correct_type_name` as nested inside `process_class`: rewrite a raw
type spelling to a fully-qualified one using the enclosing class's bare
name, its fully-qualified name, and the local simple-name table; a core
token that already contains `::` is returned unchanged, as is any core
token with no match. -/
def correct_type_name (simple_class_name : String)
    (fully_qualified_name : String)
    (local_namespace_types : List (String × String))
    (type_name_str : String) : String :=
  if type_name_str = "" then ""
  else
    let pre := (strip_const_pre type_name_str).1
    let main_part := correct_core type_name_str
    let suf := (strip_ref_suf (strip_const_pre type_name_str).2).2
    if strContains main_part "::" then type_name_str
    else if main_part = simple_class_name then
      pre ++ fully_qualified_name ++ suf
    else
      match local_namespace_types.lookup main_part with
      | some q => pre ++ q ++ suf
      | none => type_name_str

/-! Pipeline bookkeeping state and container models. -/

/-- Python `set.add` on the insertion-ordered list model of a set. -/
def setAdd (l : List String) (x : String) : List String :=
  if x ∈ l then l else l ++ [x]

/-- Python `defaultdict(list)[k].append(v)` on the insertion-ordered
association-list model of the dict. -/
def nsAppend (m : List (String × List String)) (k : String) (v : String) :
    List (String × List String) :=
  match m with
  | [] => [(k, [v])]
  | (k0, vs) :: rest =>
    if k0 = k then (k0, vs ++ [v]) :: rest else (k0, vs) :: nsAppend rest k v

/-- Fragments filed under a namespace key (empty when absent). -/
def nsGet (m : List (String × List String)) (k : String) : List String :=
  (m.lookup k).getD []

/-- The generator's bookkeeping registries (one generator instance):
`external_types`, `registered_types` and `resolved_types` model Python
sets as insertion-ordered duplicate-free lists; `skipped_types` is a
list; `namespace_registrations` is the namespace-keyed fragment dict. -/
structure GenState where
  external_types : List String
  registered_types : List String
  resolved_types : List String
  skipped_types : List String
  namespace_registrations : List (String × List String)
  deriving DecidableEq, Repr

/-- The class name `process_class` works with: display form for a
template specialization, bare spelling otherwise. -/
def class_name_of (node : Node) : String :=
  if is_template_specialization node then node.displayname
  else node.spelling

/-- `class_name.split('<')[0]` as computed (twice, under two names) in
`process_class` for the self-reference check and the fragment comment. -/
def short_name_of (node : Node) : String :=
  let cn := class_name_of node
  if strContains cn "<" then takeBeforeLt cn else cn

/-- The local simple-name resolution table built in `process_class` from
the keys of `type_infos`: map each collected fully-qualified name's last
component (template arguments stripped) to the full name; on collision,
first registered wins. -/
def build_local_table (type_infos_keys : List String) :
    List (String × String) :=
  type_infos_keys.foldl
    (fun tbl fqn =>
      let simple0 := split_last fqn
      let simple :=
        if strContains simple0 "<" then takeBeforeLt simple0 else simple0
      if (tbl.lookup simple).isSome then tbl else tbl ++ [(simple, fqn)])
    []

/-- The registration fragment text synthesized by `process_class` for a
class with the given surviving members. -/
def class_registration (fully_qualified_name short_name simple_class : String)
    (tbl : List (String × String)) (properties : List String)
    (methods : List MethodInfo) (constructors : List (List String)) :
    String :=
  let base :=
    "    // " ++ short_name ++ " (" ++ fully_qualified_name ++
      ") 类的反射注册\n" ++
    "    Registry_<" ++ fully_qualified_name ++ ">()\n"
  let props := strJoin (properties.map (fun p =>
    "        .property(\"" ++ p ++ "\", &" ++ fully_qualified_name ++ "::" ++
      p ++ ")\n"))
  let meths := strJoin (methods.map (fun m =>
    let crt := correct_type_name simple_class fully_qualified_name tbl
      m.return_type_orig
    let cps := m.param_types_orig.map
      (correct_type_name simple_class fully_qualified_name tbl)
    let const_suf := if m.is_const then " const" else ""
    let plist := joinSep ", " cps
    let fptr := "(" ++ crt ++ " (" ++ fully_qualified_name ++ "::*)(" ++
      plist ++ ")" ++ const_suf ++ ")"
    let targs := joinSep ", " (crt :: cps)
    "        .method<" ++ targs ++ ">(\"" ++ m.name ++ "\", " ++ fptr ++
      "&" ++ fully_qualified_name ++ "::" ++ m.name ++ ")\n"))
  let ctors := strJoin (constructors.map (fun ps =>
    if ps = [] then "        .constructor<>()\n"
    else
      "        .constructor<" ++
        joinSep ", " (ps.map
          (correct_type_name simple_class fully_qualified_name tbl)) ++
        ">()\n"))
  base ++ props ++ meths ++ ctors ++ "    ;"

/-- The members `process_class` collects for a node in a given state. -/
def collect_members_of (st : GenState) (node : Node) :
    List String × List MethodInfo × List (List String) :=
  collect_members st.external_types (class_name_of node) node.kind
    node.children

/-- The registration fragment `process_class` synthesizes for a node
(when members survive). -/
def class_registration_of (st : GenState) (type_infos_keys : List String)
    (node : Node) : String :=
  let pmc := collect_members_of st node
  class_registration (get_qualified_name node) (short_name_of node)
    (short_name_of node) (build_local_table type_infos_keys)
    pmc.1 pmc.2.1 pmc.2.2

/-- `process_class`: skip unnamed classes, generic templates, external
types and already-registered qualified names; collect the surviving
public non-static members; with no surviving member, only log the type
into `skipped_types`; otherwise mark it registered and resolved and file
exactly one registration fragment under its namespace path. -/
def process_class (st : GenState) (type_infos_keys : List String)
    (node : Node) : GenState :=
  if class_name_of node = "" ∨ strContains (class_name_of node) "unnamed"
  then st
  else if node.kind = CursorKind.CLASS_TEMPLATE ∨
      (is_template_class node ∧ ¬ is_template_specialization node) then st
  else if node.is_external then st
  else if get_qualified_name node ∈ st.registered_types then st
  else if (collect_members_of st node).1 = [] ∧
      (collect_members_of st node).2.1 = [] ∧
      (collect_members_of st node).2.2 = [] then
    { st with
      skipped_types :=
        st.skipped_types ++ [get_qualified_name node ++ " (无公开可反射成员)"] }
  else
    { st with
      registered_types := setAdd st.registered_types (get_qualified_name node)
      resolved_types := setAdd st.resolved_types (get_qualified_name node)
      namespace_registrations :=
        nsAppend st.namespace_registrations (get_namespace_path node)
          (class_registration_of st type_infos_keys node) }

/-- The underlying integral type printed for an enum:
`cursor.enum_type.spelling` when available and non-empty, otherwise the
`"int"` fallback. -/
def enum_underlying (node : Node) : String :=
  match node.enum_type_spelling with
  | some s => if s ≠ "" then s else "int"
  | none => "int"

/-- The enumerator names of an enum node in declaration order. -/
def enum_values_of (node : Node) : List String :=
  (node.children.filter
    (fun c => c.kind == CursorKind.ENUM_CONSTANT_DECL)).map Child.spelling

/-- The registration fragment text synthesized by `process_enum`: one
value-binding entry per enumerator, referenced through the enum's
fully-qualified name; the scoped and unscoped branches of the source
emit the same text. -/
def enum_registration (enum_name fully_qualified_name enum_type : String)
    (is_enum_class : Bool) (values : List String) : String :=
  "    // " ++ enum_name ++ " 枚举的反射注册 (基础类型: " ++ enum_type ++
    ")\n" ++
  "    Enum_<" ++ fully_qualified_name ++ ">()\n" ++
  strJoin (values.map (fun v =>
    if is_enum_class then
      "        .value(\"" ++ v ++ "\", " ++ fully_qualified_name ++ "::" ++
        v ++ ")\n"
    else
      "        .value(\"" ++ v ++ "\", " ++ fully_qualified_name ++ "::" ++
        v ++ ")\n")) ++
  "    ;"

/-- `process_enum`: skip unnamed enums; record external enums into
`external_types`; skip already-registered qualified names; otherwise
mark the enum registered, and when the enumerator list is non-empty also
mark it resolved and file its fragment under its namespace path. -/
def process_enum (st : GenState) (node : Node) : GenState :=
  if node.spelling = "" ∨ strContains node.spelling "unnamed" then st
  else if node.is_external then
    { st with external_types := setAdd st.external_types node.spelling }
  else if get_qualified_name node ∈ st.registered_types then st
  else if enum_values_of node ≠ [] then
    { st with
      registered_types := setAdd st.registered_types (get_qualified_name node)
      resolved_types := setAdd st.resolved_types (get_qualified_name node)
      namespace_registrations :=
        nsAppend st.namespace_registrations (get_namespace_path node)
          (enum_registration node.spelling (get_qualified_name node)
            (enum_underlying node) node.is_scoped_enum
            (enum_values_of node)) }
  else
    { st with
      registered_types :=
        setAdd st.registered_types (get_qualified_name node) }

/-! Type collection registry (`type_infos`). -/

/-- The per-type record stored in `type_infos` (the `cursor` field is
modelled by the cursor identity). -/
structure TypeInfo where
  cursor_id : Nat
  name : String
  qualified_name : String
  parent_is_class : Bool
  parent_is_struct : Bool
  access : AccessSpecifier
  is_public : Bool
  is_truly_public_flag : Bool
  is_template : Bool
  is_specialization : Bool
  namespace_path : String
  deriving DecidableEq, Repr

/-- The store `self.type_infos[qualified_name] = {...}` performed by
`collect_all_types`: Python dict assignment, which overwrites the entry
of an existing key in place and appends a new key at the end. -/
def store_type_info (type_infos : List (String × TypeInfo))
    (qualified_name : String) (info : TypeInfo) :
    List (String × TypeInfo) :=
  match type_infos with
  | [] => [(qualified_name, info)]
  | (k0, v0) :: rest =>
    if k0 = qualified_name then (qualified_name, info) :: rest
    else (k0, v0) :: store_type_info rest qualified_name info

/-! Registration Code Synthesizer (`generate`) and process exit codes
(`main`). -/

/-- The inclusion line written for one processed input file. -/
def include_line (h : String) : String := "#include \"" ++ h ++ "\"\n"

/-- Namespace-keyed fragment dict sorted by key (Python
`sorted(dict.items())`; keys are distinct, so the key decides). -/
def sortPairs (m : List (String × List String)) :
    List (String × List String) :=
  sortLe (fun a b => strLe a.1 b.1) m

/-- The output written before the registration body: the registry
runtime header inclusion, one inclusion line per distinct processed
input file in sorted order, the fixed comment banner, and the
external/skipped diagnostic comment blocks. -/
def generate_prelude (processed_files external_types skipped_types :
    List String) : String :=
  "#include <RTTM/RTTM.hpp>\n" ++
  strJoin ((sortStr processed_files).map include_line) ++
  "\n" ++
  "// 自动生成的反射注册代码，请勿修改\n" ++
  "// 此代码仅包含头文件中直接定义的类型，不包含外部库引用\n" ++
  "// 注意：私有成员、保护成员、静态成员变量和静态方法已被排除\n" ++
  "// 普通模板类被排除，但模板特化会被包含\n" ++
  "// 所有非公开的嵌套类型都被排除，包括嵌套在非公开类型中的公开类型\n" ++
  "using namespace RTTM;\n\n" ++
  (if external_types ≠ [] then
    "// 以下外部类型被排除在反射之外:\n" ++
      strJoin ((sortStr external_types).map (fun t => "// - " ++ t ++ "\n")) ++
      "\n"
  else "") ++
  (if skipped_types ≠ [] then
    "// 以下类型在处理过程中被跳过:\n" ++
      strJoin (skipped_types.map (fun t => "// - " ++ t ++ "\n")) ++ "\n"
  else "")

/-- The registration body: when at least one namespace holds a fragment,
a registration block with the global-namespace fragments first, then the
remaining namespaces in sorted order, each preceded by a one-line
namespace comment, fragments in discovery order; otherwise only the
"nothing found" comment. -/
def generate_body (regs : List (String × List String)) : String :=
  let has_types := regs.any (fun p => !p.2.isEmpty)
  if has_types then
    "RTTM_REGISTRATION \x7b\n" ++
    (match regs.lookup "" with
     | some codes =>
       if codes ≠ [] then strJoin (codes.map (fun c => c ++ "\n\n")) else ""
     | none => "") ++
    strJoin ((sortPairs regs).map (fun p =>
      if p.1 = "" then ""
      else if p.2 ≠ [] then
        "    // " ++ p.1 ++ " 命名空间中的类型\n" ++
          strJoin (p.2.map (fun c => c ++ "\n\n"))
      else "")) ++
    "\x7d\n"
  else "// 未找到需要反射的类型\n"

/-- The full text `generate` writes to the output file. -/
def generate_output (processed_files external_types skipped_types :
    List String) (regs : List (String × List String)) : String :=
  generate_prelude processed_files external_types skipped_types ++
    generate_body regs

/-- The process exit code computed by `main`: 2 when the header-list
file cannot be read; otherwise 2 when writing the output fails, 0 when
it succeeds and every header was processed without error, and 1 when it
succeeds but some header failed. -/
def main_exit (read_list_ok : Bool) (header_results : List Bool)
    (generate_ok : Bool) : Nat :=
  if read_list_ok = false then 2
  else if generate_ok then (if header_results.all id then 0 else 1)
  else 2

/-! Claims about the type-name corrector. -/

lemma correct_scoped (scn fqn : String) (tbl : List (String × String))
    (s : String) (h : strContains (correct_core s) "::" = true) :
    correct_type_name scn fqn tbl s = s := by
  have hs : s ≠ "" := by
    intro he
    rw [he] at h
    exact absurd h (by decide)
  simp [correct_type_name, hs, h]

lemma correct_self (scn fqn : String) (tbl : List (String × String))
    (s : String) (h0 : s ≠ "")
    (h1 : strContains (correct_core s) "::" = false)
    (h2 : correct_core s = scn) :
    correct_type_name scn fqn tbl s =
      (strip_const_pre s).1 ++ fqn ++ (strip_ref_suf (strip_const_pre s).2).2 := by
  have h1s : strContains scn "::" = false := h2 ▸ h1
  simp [correct_type_name, h0, h1, h1s, h2]

lemma correct_nomatch (scn fqn : String) (tbl : List (String × String))
    (s : String) (h0 : s ≠ "")
    (h1 : strContains (correct_core s) "::" = false)
    (h2 : correct_core s ≠ scn)
    (h3 : tbl.lookup (correct_core s) = none) :
    correct_type_name scn fqn tbl s = s := by
  simp [correct_type_name, h0, h1, h2, h3]

/-- C3: for an enclosing class with bare name `Foo` and qualified name
`NS::Foo`, `correct_type_name` maps `"const Foo&"` to
`"const NS::Foo&"`; it leaves `"int"` unchanged (no table entry matches
a fundamental type); it leaves `"std::vector<int>"` unchanged; and for
every input whose core token (after stripping a leading `const ` and a
single trailing `&&`/`&`/`*`) contains `::`, the original spelling is
returned unchanged. -/
theorem C3_correct_type_name :
    (∀ tbl, correct_type_name "Foo" "NS::Foo" tbl "const Foo&" =
      "const NS::Foo&") ∧
    (∀ tbl : List (String × String), tbl.lookup "int" = none →
      correct_type_name "Foo" "NS::Foo" tbl "int" = "int") ∧
    (∀ scn fqn tbl, correct_type_name scn fqn tbl "std::vector<int>" =
      "std::vector<int>") ∧
    (∀ scn fqn tbl s, strContains (correct_core s) "::" = true →
      correct_type_name scn fqn tbl s = s) := by
  refine ⟨?_, ?_, ?_, correct_scoped⟩
  · intro tbl
    have h := correct_self "Foo" "NS::Foo" tbl "const Foo&" (by decide)
      (by decide) (by decide)
    rw [h]
    rfl
  · intro tbl hl
    have hc : correct_core "int" = "int" := by decide
    refine correct_nomatch "Foo" "NS::Foo" tbl "int" (by decide) (by decide)
      (by decide) ?_
    rw [hc]
    exact hl
  · intro scn fqn tbl
    exact correct_scoped scn fqn tbl "std::vector<int>" (by decide)

/-- Witness for C3: the fundamental-type case at the empty table and the
already-qualified case at a concrete table. -/
theorem C3_witness :
    correct_type_name "Foo" "NS::Foo" [] "int" = "int" ∧
    correct_type_name "Bar" "M::Bar" [("X", "M::X")] "std::string" =
      "std::string" :=
  ⟨C3_correct_type_name.2.1 [] rfl,
   C3_correct_type_name.2.2.2 "Bar" "M::Bar" [("X", "M::X")] "std::string"
     (by decide)⟩

/-! Claim about process exit codes. -/

/-- C8: the exit code is 0 exactly when the header list was readable,
every header processed without error, and the output written; a failed
header with the output still written exits 1; an unreadable header list
or an unwritable output exits 2, and the fatal code 2 is strictly
greater than the partial-success code 1 (all three distinct). -/
theorem C8_exit_codes :
    ∀ (r : Bool) (hs : List Bool) (g : Bool),
      (main_exit r hs g = 0 ↔ r = true ∧ hs.all id = true ∧ g = true) ∧
      (r = true → g = true → hs.all id = false → main_exit r hs g = 1) ∧
      (r = false → main_exit r hs g = 2) ∧
      (r = true → g = false → main_exit r hs g = 2) ∧
      (1 : Nat) ≠ 0 ∧ (2 : Nat) ≠ 0 ∧ (1 : Nat) < 2 := by
  intro r hs g
  refine ⟨?_, ?_, ?_, ?_, by norm_num, by norm_num, by norm_num⟩
  · cases r <;> cases g <;> by_cases h : hs.all id = true <;>
      simp [main_exit, h]
  · intro h1 h2 h3
    subst h1; subst h2
    simp [main_exit, h3]
  · intro h1; subst h1; simp [main_exit]
  · intro h1 h2; subst h1; subst h2; simp [main_exit]

/-- Witness for C8: one failed header with the output written yields
exit code 1. -/
theorem C8_witness : main_exit true [true, false] true = 1 :=
  (C8_exit_codes true [true, false] true).2.1 rfl rfl (by decide)

/-! Claims about the type registry and registration dedup. -/

lemma store_type_info_keys (q : String) (i : TypeInfo) :
    ∀ m : List (String × TypeInfo),
      (store_type_info m q i).map Prod.fst =
        if q ∈ m.map Prod.fst then m.map Prod.fst
        else m.map Prod.fst ++ [q] := by
  intro m
  induction m with
  | nil => simp [store_type_info]
  | cons p rest ih =>
    obtain ⟨k0, v0⟩ := p
    by_cases h : k0 = q
    · subst h; simp [store_type_info]
    · by_cases hm : q ∈ rest.map Prod.fst <;>
        simp [store_type_info, h, Ne.symm h, hm, ih]

lemma store_type_info_lookup (q : String) (i : TypeInfo) :
    ∀ m : List (String × TypeInfo),
      (store_type_info m q i).lookup q = some i := by
  intro m
  induction m with
  | nil => simp [store_type_info, List.lookup]
  | cons p rest ih =>
    obtain ⟨k0, v0⟩ := p
    by_cases h : k0 = q
    · subst h; simp [store_type_info, List.lookup]
    · have hqk : (q == k0) = false := by simp [Ne.symm h]
      simp [store_type_info, h, List.lookup, hqk, ih]

lemma process_class_registered (st : GenState) (keys : List String)
    (node : Node) (h : get_qualified_name node ∈ st.registered_types) :
    process_class st keys node = st := by
  unfold process_class
  by_cases c1 : class_name_of node = "" ∨
    strContains (class_name_of node) "unnamed" = true
  · rw [if_pos c1]
  · rw [if_neg c1]
    by_cases c2 : node.kind = CursorKind.CLASS_TEMPLATE ∨
      (is_template_class node = true ∧ ¬ is_template_specialization node = true)
    · rw [if_pos c2]
    · rw [if_neg c2]
      by_cases c3 : node.is_external = true
      · rw [if_pos c3]
      · rw [if_neg c3, if_pos h]

lemma process_enum_registered (st : GenState) (node : Node)
    (hext : node.is_external = false)
    (h : get_qualified_name node ∈ st.registered_types) :
    process_enum st node = st := by
  unfold process_enum
  by_cases c1 : node.spelling = "" ∨ strContains node.spelling "unnamed" = true
  · rw [if_pos c1]
  · have c2 : ¬ (node.is_external = true) := by simp [hext]
    rw [if_neg c1, if_neg c2, if_pos h]

def exInfo1 : TypeInfo :=
  ⟨1, "Foo", "NS::Foo", false, false, AccessSpecifier.PUBLIC, true, true,
    false, false, "NS"⟩

def exInfo2 : TypeInfo :=
  ⟨2, "Foo", "NS::Foo", false, false, AccessSpecifier.PUBLIC, true, true,
    false, false, "NS"⟩

/-- Counterexample for C4: re-encountering the qualified name
`"NS::Foo"` during type collection (e.g. the definition cursor after the
forward-declaration cursor, here with a different cursor identity) is an
overwrite of the stored record, not a no-op. -/
theorem C4_counterexample :
    ([("NS::Foo", exInfo1)].lookup "NS::Foo" = some exInfo1) ∧
    store_type_info [("NS::Foo", exInfo1)] "NS::Foo" exInfo2 ≠
      [("NS::Foo", exInfo1)] ∧
    (store_type_info [("NS::Foo", exInfo1)] "NS::Foo" exInfo2).lookup
      "NS::Foo" = some exInfo2 := by decide

/-- C4 (amended): the type-collection registry keeps exactly one
TypeInfo per distinct qualified name (dict keyed by qualified name; a
re-encounter overwrites the stored record in place rather than being a
no-op), and re-encountering a qualified name at registration time is a
no-op: `process_class` (and `process_enum` for a named non-external
enum) leaves every registry unchanged when the qualified name is already
registered. -/
theorem C4_registration_dedup :
    (∀ (m : List (String × TypeInfo)) (q : String) (i : TypeInfo),
      ((m.map Prod.fst).Nodup → ((store_type_info m q i).map Prod.fst).Nodup) ∧
      (store_type_info m q i).lookup q = some i) ∧
    (∀ st keys node, get_qualified_name node ∈ st.registered_types →
      process_class st keys node = st) ∧
    (∀ st node, node.is_external = false →
      get_qualified_name node ∈ st.registered_types →
      process_enum st node = st) := by
  refine ⟨?_, process_class_registered, ?_⟩
  · intro m q i
    refine ⟨?_, store_type_info_lookup q i m⟩
    intro hnd
    rw [store_type_info_keys]
    by_cases hm : q ∈ m.map Prod.fst
    · simpa [hm] using hnd
    · simp [hm, List.nodup_append, hnd]
  · intro st node h1 h2
    exact process_enum_registered st node h1 h2

/-- Example state in which `NS::Foo` is already registered. -/
def exRegisteredState : GenState := ⟨[], ["NS::Foo"], [], [], []⟩

/-- Example class cursor `Foo` in namespace `NS`. -/
def exNodeFoo : Node :=
  ⟨CursorKind.CLASS_DECL, "Foo", "Foo", false, false, none,
    [(CursorKind.NAMESPACE, "NS")], []⟩

/-- Witness for C4: processing `NS::Foo` again leaves the registries
unchanged, and storing into an empty registry keeps keys distinct. -/
theorem C4_witness :
    process_class exRegisteredState [] exNodeFoo = exRegisteredState ∧
    ((store_type_info [] "NS::Foo" exInfo1).map Prod.fst).Nodup :=
  ⟨C4_registration_dedup.2.1 exRegisteredState [] exNodeFoo (by decide),
   (C4_registration_dedup.1 [] "NS::Foo" exInfo1).1 (by decide)⟩

/-! Claims about enum processing. -/

lemma process_enum_empty (st : GenState) (node : Node)
    (h1 : node.spelling ≠ "")
    (h2 : strContains node.spelling "unnamed" = false)
    (h3 : node.is_external = false)
    (h4 : get_qualified_name node ∉ st.registered_types)
    (h5 : enum_values_of node = []) :
    process_enum st node =
      { st with
        registered_types :=
          st.registered_types ++ [get_qualified_name node] } := by
  simp [process_enum, h1, h2, h3, h4, h5, setAdd]

/-- C10: a named, non-external enum with an empty enumerator list is
still added to the registered-types set while the resolved-types set and
the fragment dict are untouched, and any later `process_enum` encounter
of a non-external enum with the same fully-qualified name is a no-op
even though no registration code was ever produced. -/
theorem C10_empty_enum_registration (st : GenState) (node : Node)
    (h1 : node.spelling ≠ "")
    (h2 : strContains node.spelling "unnamed" = false)
    (h3 : node.is_external = false)
    (h4 : get_qualified_name node ∉ st.registered_types)
    (h5 : enum_values_of node = []) :
    process_enum st node =
      { st with
        registered_types :=
          st.registered_types ++ [get_qualified_name node] } ∧
    (process_enum st node).resolved_types = st.resolved_types ∧
    (process_enum st node).namespace_registrations =
      st.namespace_registrations ∧
    ∀ node2 : Node, node2.is_external = false →
      get_qualified_name node2 = get_qualified_name node →
      process_enum (process_enum st node) node2 = process_enum st node := by
  have he := process_enum_empty st node h1 h2 h3 h4 h5
  refine ⟨he, by rw [he], by rw [he], ?_⟩
  intro node2 hx he2
  apply process_enum_registered _ _ hx
  rw [he, he2]
  exact List.mem_append_right _ (by simp)

/-- Example named enum with no enumerators. -/
def exEmptyEnum : Node :=
  ⟨CursorKind.ENUM_DECL, "E0", "E0", false, false, some "int", [], []⟩

/-- The empty generator state. -/
def st0 : GenState := ⟨[], [], [], [], []⟩

/-- Witness for C10: the empty enum `E0` is registered without being
resolved, and a second encounter is a no-op. -/
theorem C10_witness :
    process_enum st0 exEmptyEnum =
      { st0 with
        registered_types :=
          st0.registered_types ++ [get_qualified_name exEmptyEnum] } ∧
    process_enum (process_enum st0 exEmptyEnum) exEmptyEnum =
      process_enum st0 exEmptyEnum := by
  have h := C10_empty_enum_registration st0 exEmptyEnum (by decide)
    (by decide) (by decide) (by decide) (by decide)
  exact ⟨h.1, h.2.2.2 exEmptyEnum (by decide) rfl⟩

/-! Claims about class processing. -/

lemma mem_setAdd_self (l : List String) (x : String) : x ∈ setAdd l x := by
  by_cases h : x ∈ l <;> simp [setAdd, h]

lemma nsGet_nsAppend (k v : String) :
    ∀ m, nsGet (nsAppend m k v) k = nsGet m k ++ [v] := by
  intro m
  induction m with
  | nil => simp [nsGet, nsAppend, List.lookup]
  | cons p rest ih =>
    obtain ⟨k0, vs⟩ := p
    by_cases h : k0 = k
    · subst h; simp [nsGet, nsAppend, List.lookup]
    · have hkk : (k == k0) = false := by simp [Ne.symm h]
      simp [nsGet, nsAppend, List.lookup, h, hkk]
      simpa [nsGet] using ih

lemma process_class_success (st : GenState) (keys : List String) (node : Node)
    (hA : class_name_of node ≠ "")
    (hB : strContains (class_name_of node) "unnamed" = false)
    (hC : node.kind ≠ CursorKind.CLASS_TEMPLATE)
    (hD : is_template_class node = false ∨
      is_template_specialization node = true)
    (hE : node.is_external = false)
    (hF : get_qualified_name node ∉ st.registered_types) :
    (((collect_members_of st node).1 = [] ∧
        (collect_members_of st node).2.1 = [] ∧
        (collect_members_of st node).2.2 = []) →
      process_class st keys node =
        { st with
          skipped_types := st.skipped_types ++
            [get_qualified_name node ++ " (无公开可反射成员)"] }) ∧
    (¬((collect_members_of st node).1 = [] ∧
        (collect_members_of st node).2.1 = [] ∧
        (collect_members_of st node).2.2 = []) →
      process_class st keys node =
        { st with
          registered_types :=
            st.registered_types ++ [get_qualified_name node]
          resolved_types := setAdd st.resolved_types (get_qualified_name node)
          namespace_registrations :=
            nsAppend st.namespace_registrations (get_namespace_path node)
              (class_registration_of st keys node) }) := by
  have c1 : ¬(class_name_of node = "" ∨
      strContains (class_name_of node) "unnamed" = true) := by
    simp [hA, hB]
  have c2 : ¬(node.kind = CursorKind.CLASS_TEMPLATE ∨
      (is_template_class node = true ∧
        ¬ is_template_specialization node = true)) := by
    rcases hD with h | h <;> simp [hC, h]
  have c3 : ¬(node.is_external = true) := by simp [hE]
  have hAdd : setAdd st.registered_types (get_qualified_name node) =
      st.registered_types ++ [get_qualified_name node] := by
    simp [setAdd, hF]
  constructor <;> intro hM
  · unfold process_class
    rw [if_neg c1, if_neg c2, if_neg c3, if_neg hF, if_pos hM]
  · unfold process_class
    rw [if_neg c1, if_neg c2, if_neg c3, if_neg hF, if_neg hM, hAdd]

/-- C5: in `process_class`, when no property, method or constructor
survives member filtering, the type is only logged to `skipped_types`
with the no-reflectable-members reason (the source's literal is the
Chinese `无公开可反射成员`, "no public reflectable members"), no fragment
is produced, and its qualified name joins neither the registered nor the
resolved set; conversely, when at least one member survives, the
qualified name joins both sets and exactly one fragment is appended
under its namespace. -/
theorem C5_no_reflectable_members (st : GenState) (keys : List String)
    (node : Node)
    (hA : class_name_of node ≠ "")
    (hB : strContains (class_name_of node) "unnamed" = false)
    (hC : node.kind ≠ CursorKind.CLASS_TEMPLATE)
    (hD : is_template_class node = false ∨
      is_template_specialization node = true)
    (hE : node.is_external = false)
    (hF : get_qualified_name node ∉ st.registered_types) :
    (((collect_members_of st node).1 = [] ∧
        (collect_members_of st node).2.1 = [] ∧
        (collect_members_of st node).2.2 = []) →
      process_class st keys node =
        { st with
          skipped_types := st.skipped_types ++
            [get_qualified_name node ++ " (无公开可反射成员)"] } ∧
      (process_class st keys node).registered_types = st.registered_types ∧
      (process_class st keys node).resolved_types = st.resolved_types ∧
      (process_class st keys node).namespace_registrations =
        st.namespace_registrations) ∧
    (¬((collect_members_of st node).1 = [] ∧
        (collect_members_of st node).2.1 = [] ∧
        (collect_members_of st node).2.2 = []) →
      get_qualified_name node ∈ (process_class st keys node).registered_types ∧
      get_qualified_name node ∈ (process_class st keys node).resolved_types ∧
      nsGet (process_class st keys node).namespace_registrations
          (get_namespace_path node) =
        nsGet st.namespace_registrations (get_namespace_path node) ++
          [class_registration_of st keys node]) := by
  have hmain := process_class_success st keys node hA hB hC hD hE hF
  constructor
  · intro hM
    have he := hmain.1 hM
    exact ⟨he, by rw [he], by rw [he], by rw [he]⟩
  · intro hM
    have he := hmain.2 hM
    refine ⟨?_, ?_, ?_⟩
    · rw [he]; exact List.mem_append_right _ (by simp)
    · rw [he]; exact mem_setAdd_self _ _
    · rw [he]; exact nsGet_nsAppend _ _ _

/-- Example public field `x` of type `int` (cursor id 5). -/
def exFieldX : Child :=
  ⟨CursorKind.FIELD_DECL, 5, "x", AccessSpecifier.PRIVATE, false, false,
    false, "int", "", []⟩

/-- Example struct `P` with field `x` public by default. -/
def exClassP : Node :=
  ⟨CursorKind.STRUCT_DECL, "P", "P", false, false, none, [], [exFieldX]⟩

/-- Example class `Q` with field `x` private by default. -/
def exClassQ : Node :=
  ⟨CursorKind.CLASS_DECL, "Q", "Q", false, false, none, [], [exFieldX]⟩

/-- Witness for C5: the class with only a default-private field is
merely logged as skipped, while the struct with a public field is
registered. -/
theorem C5_witness :
    process_class st0 [] exClassQ =
      { st0 with
        skipped_types := st0.skipped_types ++
          [get_qualified_name exClassQ ++ " (无公开可反射成员)"] } ∧
    get_qualified_name exClassP ∈
      (process_class st0 [] exClassP).registered_types :=
  ⟨((C5_no_reflectable_members st0 [] exClassQ (by decide) (by decide)
      (by decide) (by decide) (by decide) (by decide)).1 (by decide)).1,
   ((C5_no_reflectable_members st0 [] exClassP (by decide) (by decide)
      (by decide) (by decide) (by decide) (by decide)).2 (by decide)).1⟩

/-! Claim about enum fragment synthesis. -/

lemma process_enum_success (st : GenState) (node : Node)
    (h1 : node.spelling ≠ "")
    (h2 : strContains node.spelling "unnamed" = false)
    (h3 : node.is_external = false)
    (h4 : get_qualified_name node ∉ st.registered_types)
    (h5 : enum_values_of node ≠ []) :
    process_enum st node =
      { st with
        registered_types := st.registered_types ++ [get_qualified_name node]
        resolved_types := setAdd st.resolved_types (get_qualified_name node)
        namespace_registrations :=
          nsAppend st.namespace_registrations (get_namespace_path node)
            (enum_registration node.spelling (get_qualified_name node)
              (enum_underlying node) node.is_scoped_enum
              (enum_values_of node)) } := by
  have c1 : ¬(node.spelling = "" ∨ strContains node.spelling "unnamed" = true) := by
    simp [h1, h2]
  have c3 : ¬(node.is_external = true) := by simp [h3]
  have hAdd : setAdd st.registered_types (get_qualified_name node) =
      st.registered_types ++ [get_qualified_name node] := by
    simp [setAdd, h4]
  unfold process_enum
  rw [if_neg c1, if_neg c3, if_neg h4, if_pos h5, hAdd]

/-- C6: for a named, non-external enum with a non-empty enumerator list
(not yet registered), `process_enum` appends exactly one fragment with
one value-binding entry per enumerator in declaration order, each
referencing the enumerator through the enum's fully-qualified name, and
the emitted fragment — indeed the entire resulting state — is identical
regardless of whether the enum is scoped or unscoped. -/
theorem C6_enum_fragment (st : GenState) (node : Node)
    (h1 : node.spelling ≠ "")
    (h2 : strContains node.spelling "unnamed" = false)
    (h3 : node.is_external = false)
    (h4 : get_qualified_name node ∉ st.registered_types)
    (h5 : enum_values_of node ≠ []) :
    nsGet (process_enum st node).namespace_registrations
        (get_namespace_path node) =
      nsGet st.namespace_registrations (get_namespace_path node) ++
        [enum_registration node.spelling (get_qualified_name node)
          (enum_underlying node) node.is_scoped_enum
          (enum_values_of node)] ∧
    (∀ (b1 b2 : Bool) (name fqn t : String) (values : List String),
      enum_registration name fqn t b1 values =
        enum_registration name fqn t b2 values) ∧
    (∀ b : Bool,
      process_enum st { node with is_scoped_enum := b } =
        process_enum st node) := by
  have hreg : ∀ (b1 b2 : Bool) (name fqn t : String) (values : List String),
      enum_registration name fqn t b1 values =
        enum_registration name fqn t b2 values := by
    intro b1 b2 name fqn t values
    simp [enum_registration]
  have he := process_enum_success st node h1 h2 h3 h4 h5
  refine ⟨?_, hreg, ?_⟩
  · rw [he]; exact nsGet_nsAppend _ _ _
  · intro b
    have he2 := process_enum_success st { node with is_scoped_enum := b }
      h1 h2 h3 h4 h5
    have hqual : get_qualified_name { node with is_scoped_enum := b } =
      get_qualified_name node := rfl
    have hpath : get_namespace_path { node with is_scoped_enum := b } =
      get_namespace_path node := rfl
    have hvals : enum_values_of { node with is_scoped_enum := b } =
      enum_values_of node := rfl
    have hund : enum_underlying { node with is_scoped_enum := b } =
      enum_underlying node := rfl
    rw [hqual, hpath, hvals, hund] at he2
    rw [he2, he,
      hreg b node.is_scoped_enum node.spelling (get_qualified_name node)
        (enum_underlying node) (enum_values_of node)]

/-- Example enumerator `A`. -/
def exEnumChildA : Child :=
  ⟨CursorKind.ENUM_CONSTANT_DECL, 21, "A", AccessSpecifier.PUBLIC, false,
    false, false, "", "", []⟩

/-- Example enumerator `B`. -/
def exEnumChildB : Child :=
  ⟨CursorKind.ENUM_CONSTANT_DECL, 22, "B", AccessSpecifier.PUBLIC, false,
    false, false, "", "", []⟩

/-- Example scoped enum `E` with enumerators `{A, B}` in namespace
`NS`. -/
def exEnumNS : Node :=
  ⟨CursorKind.ENUM_DECL, "E", "E", false, true, some "int",
    [(CursorKind.NAMESPACE, "NS")], [exEnumChildA, exEnumChildB]⟩

/-- Witness for C6: the `NS`-scoped enum `E {A, B}` yields exactly the
two entries `NS::E::A` and `NS::E::B`, and flipping scopedness changes
nothing. -/
theorem C6_witness :
    nsGet (process_enum st0 exEnumNS).namespace_registrations
        (get_namespace_path exEnumNS) =
      nsGet st0.namespace_registrations (get_namespace_path exEnumNS) ++
        ["    // E 枚举的反射注册 (基础类型: int)\n    Enum_<NS::E>()\n        .value(\"A\", NS::E::A)\n        .value(\"B\", NS::E::B)\n    ;"] ∧
    process_enum st0 { exEnumNS with is_scoped_enum := false } =
      process_enum st0 exEnumNS := by
  have h := C6_enum_fragment st0 exEnumNS (by decide) (by decide)
    (by decide) (by decide) (by decide)
  refine ⟨?_, h.2.2 false⟩
  have h1 := h.1
  rw [h1]
  rfl

/-! Claim about the namespace grouping of nested types. -/

/-- C9: a type whose immediate semantic parent is not a namespace gets
the empty namespace path, even when a namespace encloses it further up
the chain, so its registration fragment is filed under the global
namespace key. -/
theorem C9_nested_type_global_namespace (node : Node) (k : CursorKind)
    (s : String) (rest : List (CursorKind × String))
    (hanc : node.ancestors = (k, s) :: rest)
    (hk : k ≠ CursorKind.NAMESPACE) :
    get_namespace_path node = "" ∧
    (∀ st keys,
      class_name_of node ≠ "" →
      strContains (class_name_of node) "unnamed" = false →
      node.kind ≠ CursorKind.CLASS_TEMPLATE →
      (is_template_class node = false ∨
        is_template_specialization node = true) →
      node.is_external = false →
      get_qualified_name node ∉ st.registered_types →
      ¬((collect_members_of st node).1 = [] ∧
        (collect_members_of st node).2.1 = [] ∧
        (collect_members_of st node).2.2 = []) →
      (process_class st keys node).namespace_registrations =
        nsAppend st.namespace_registrations ""
          (class_registration_of st keys node)) := by
  have hns : get_namespace_path node = "" := by
    have hbeq : (k == CursorKind.NAMESPACE) = false := by simp [hk]
    simp [get_namespace_path, hanc, hbeq, joinSep]
  refine ⟨hns, ?_⟩
  intro st keys hA hB hC hD hE hF hM
  have he := (process_class_success st keys node hA hB hC hD hE hF).2 hM
  rw [he, hns]

/-- Example struct `In` nested inside struct `Outer` inside namespace
`NS`, with one public field. -/
def exNested : Node :=
  ⟨CursorKind.STRUCT_DECL, "In", "In", false, false, none,
    [(CursorKind.STRUCT_DECL, "Outer"), (CursorKind.NAMESPACE, "NS")],
    [exFieldX]⟩

/-- Witness for C9: `NS::Outer::In` is grouped under the global
namespace key. -/
theorem C9_witness :
    get_namespace_path exNested = "" ∧
    (process_class st0 [] exNested).namespace_registrations =
      nsAppend st0.namespace_registrations ""
        (class_registration_of st0 [] exNested) := by
  have h := C9_nested_type_global_namespace exNested CursorKind.STRUCT_DECL
    "Outer" [(CursorKind.NAMESPACE, "NS")] rfl (by decide)
  exact ⟨h.1, h.2 st0 [] (by decide) (by decide) (by decide) (by decide)
    (by decide) (by decide) (by decide)⟩

/-! Sorting correctness for the model of Python `sorted`. -/

lemma listCharLe_total : ∀ a b : List Char,
    listCharLe a b = true ∨ listCharLe b a = true := by
  intro a
  induction a with
  | nil => intro b; left; rfl
  | cons x as ih =>
    intro b
    cases b with
    | nil => right; rfl
    | cons y bs =>
      simp only [listCharLe]
      by_cases hxy : x.toNat < y.toNat
      · left; simp [hxy]
      · by_cases hyx : y.toNat < x.toNat
        · right; simp [hyx]
        · rcases ih bs with h | h
          · left; simp [hxy, hyx, h]
          · right; simp [hxy, hyx, h]

lemma listCharLe_trans : ∀ a b c : List Char,
    listCharLe a b = true → listCharLe b c = true →
    listCharLe a c = true := by
  intro a
  induction a with
  | nil => intro b c _ _; rfl
  | cons x as ih =>
    intro b c h1 h2
    cases b with
    | nil => simp [listCharLe] at h1
    | cons y bs =>
      cases c with
      | nil => simp [listCharLe] at h2
      | cons z cs =>
        simp only [listCharLe] at h1 h2 ⊢
        by_cases hxy : x.toNat < y.toNat
        · by_cases hyz : y.toNat < z.toNat
          · simp [hxy.trans hyz]
          · by_cases hzy : z.toNat < y.toNat
            · rw [if_neg hyz, if_pos hzy] at h2
              simp at h2
            · have hxz : x.toNat < z.toNat := by omega
              simp [hxz]
        · by_cases hyx : y.toNat < x.toNat
          · rw [if_neg hxy, if_pos hyx] at h1
            simp at h1
          · rw [if_neg hxy, if_neg hyx] at h1
            by_cases hyz : y.toNat < z.toNat
            · have hxz : x.toNat < z.toNat := by omega
              simp [hxz]
            · by_cases hzy : z.toNat < y.toNat
              · rw [if_neg hyz, if_pos hzy] at h2
                simp at h2
              · rw [if_neg hyz, if_neg hzy] at h2
                have hxz1 : ¬ x.toNat < z.toNat := by omega
                have hxz2 : ¬ z.toNat < x.toNat := by omega
                rw [if_neg hxz1, if_neg hxz2]
                exact ih bs cs h1 h2

lemma insertLe_perm {α : Type} (le : α → α → Bool) (x : α) :
    ∀ l : List α, (insertLe le x l).Perm (x :: l) := by
  intro l
  induction l with
  | nil => exact List.Perm.refl _
  | cons y rest ih =>
    by_cases h : le x y = true
    · simp only [insertLe, h, if_true]
      exact List.Perm.refl _
    · simp only [insertLe, h, if_false]
      exact (ih.cons y).trans (List.Perm.swap x y rest)

lemma sortLe_perm {α : Type} (le : α → α → Bool) :
    ∀ l : List α, (sortLe le l).Perm l := by
  intro l
  induction l with
  | nil => exact List.Perm.refl _
  | cons x rest ih =>
    exact (insertLe_perm le x (sortLe le rest)).trans (ih.cons x)

lemma pairwise_insertLe {α : Type} (le : α → α → Bool)
    (htot : ∀ a b, le a b = true ∨ le b a = true)
    (htr : ∀ a b c, le a b = true → le b c = true → le a c = true)
    (x : α) :
    ∀ l : List α, l.Pairwise (fun a b => le a b = true) →
      (insertLe le x l).Pairwise (fun a b => le a b = true) := by
  intro l
  induction l with
  | nil =>
    intro _
    simp [insertLe]
  | cons y rest ih =>
    intro h
    rw [List.pairwise_cons] at h
    obtain ⟨hy, hrest⟩ := h
    by_cases hxy : le x y = true
    · simp only [insertLe, hxy, if_true]
      refine List.Pairwise.cons ?_ (List.Pairwise.cons hy hrest)
      intro z hz
      rcases List.mem_cons.mp hz with rfl | hz
      · exact hxy
      · exact htr x y z hxy (hy z hz)
    · have hyx : le y x = true := (htot x y).resolve_left hxy
      simp only [insertLe, hxy, if_false]
      refine List.Pairwise.cons ?_ (ih hrest)
      intro z hz
      have hz2 : z = x ∨ z ∈ rest := by
        have := (insertLe_perm le x rest).mem_iff.mp hz
        simpa using this
      rcases hz2 with rfl | hz2
      · exact hyx
      · exact hy z hz2

lemma sortLe_pairwise {α : Type} (le : α → α → Bool)
    (htot : ∀ a b, le a b = true ∨ le b a = true)
    (htr : ∀ a b c, le a b = true → le b c = true → le a c = true) :
    ∀ l : List α, (sortLe le l).Pairwise (fun a b => le a b = true) := by
  intro l
  induction l with
  | nil => simp [sortLe]
  | cons x rest ih =>
    exact pairwise_insertLe le htot htr x (sortLe le rest) ih

/-! Substring lemmas for the include-line presence argument. -/

lemma isPrefixOf_refl : ∀ p : List Char, p.isPrefixOf p = true := by
  intro p
  induction p with
  | nil => rfl
  | cons c rest ih => simp [List.isPrefixOf, ih]

lemma isPrefixOf_append_right :
    ∀ p s u : List Char, p.isPrefixOf s = true →
      p.isPrefixOf (s ++ u) = true := by
  intro p
  induction p with
  | nil => intro s u _; simp
  | cons c pr ih =>
    intro s u h
    cases s with
    | nil => simp [List.isPrefixOf] at h
    | cons d sr =>
      simp only [List.isPrefixOf, List.cons_append, Bool.and_eq_true] at h ⊢
      exact ⟨h.1, ih sr u h.2⟩

lemma containsRun_nil : ∀ u : List Char, containsRun [] u = true := by
  intro u
  cases u <;> simp [containsRun, List.isPrefixOf]

lemma containsRun_of_prefixOf (p s : List Char)
    (h : p.isPrefixOf s = true) : containsRun p s = true := by
  cases s with
  | nil => simpa [containsRun] using h
  | cons c rest => simp [containsRun, h]

lemma containsRun_append_left (p : List Char) :
    ∀ u s : List Char, containsRun p s = true →
      containsRun p (u ++ s) = true := by
  intro u
  induction u with
  | nil => intro s h; simpa using h
  | cons c ur ih =>
    intro s h
    simp only [List.cons_append, containsRun, Bool.or_eq_true]
    right
    exact ih s h

lemma containsRun_append_right (p : List Char) :
    ∀ s u : List Char, containsRun p s = true →
      containsRun p (s ++ u) = true := by
  intro s
  induction s with
  | nil =>
    intro u h
    cases p with
    | nil => simpa using containsRun_nil u
    | cons c pr => simp [containsRun, List.isPrefixOf] at h
  | cons c sr ih =>
    intro u h
    simp only [containsRun, List.cons_append, Bool.or_eq_true] at h ⊢
    rcases h with h | h
    · exact Or.inl (isPrefixOf_append_right _ _ _ h)
    · exact Or.inr (ih u h)

lemma strData_append (a b : String) : (a ++ b).data = a.data ++ b.data := rfl

lemma strContains_append_left (t s pat : String)
    (h : strContains s pat = true) : strContains (t ++ s) pat = true := by
  unfold strContains at h ⊢
  rw [strData_append]
  exact containsRun_append_left _ _ _ h

lemma strContains_append_right (s t pat : String)
    (h : strContains s pat = true) : strContains (s ++ t) pat = true := by
  unfold strContains at h ⊢
  rw [strData_append]
  exact containsRun_append_right _ _ _ h

lemma strContains_self (s : String) : strContains s s = true :=
  containsRun_of_prefixOf _ _ (isPrefixOf_refl s.data)

lemma strContains_strJoin_mem (f : String → String) (x : String) :
    ∀ l : List String, x ∈ l →
      strContains (strJoin (l.map f)) (f x) = true := by
  intro l
  induction l with
  | nil => intro h; cases h
  | cons y rest ih =>
    intro h
    rcases List.mem_cons.mp h with rfl | h
    · show strContains (f x ++ strJoin (rest.map f)) (f x) = true
      exact strContains_append_right _ _ _ (strContains_self _)
    · show strContains (f y ++ strJoin (rest.map f)) (f x) = true
      exact strContains_append_left _ _ _ (ih h)

lemma strJoin_skip_global (G : String × List String → String) :
    ∀ l : List (String × List String),
      strJoin (l.map (fun p => if p.1 = "" then "" else G p)) =
        strJoin ((l.filter (fun p => !(p.1 == ""))).map G) := by
  have hnil : ∀ t : String, "" ++ t = t := fun t => rfl
  intro l
  induction l with
  | nil => rfl
  | cons p rest ih =>
    by_cases h : p.1 = ""
    · simp [List.filter_cons, strJoin, h, ih, hnil]
    · simp [List.filter_cons, strJoin, h, ih]

/-- C7: `generate` writes the registry header inclusion first, then one
inclusion line per distinct processed input file in sorted order (the
sorted list is a permutation of the input set, ordered by the string
order); when at least one fragment exists the body is the registration
block with global-namespace fragments first, then the remaining
namespaces in sorted order, each preceded by a one-line namespace
comment, fragments within a namespace in discovery order; when no
fragment exists the body is only the "nothing found" comment while every
processed input file's inclusion line is still present. -/
theorem C7_generate_layout (files ext skip : List String)
    (regs : List (String × List String)) :
    ((∀ p ∈ regs, p.2 = ([] : List String)) →
      generate_output files ext skip regs =
        generate_prelude files ext skip ++ "// 未找到需要反射的类型\n" ∧
      ∀ h ∈ files,
        strContains (generate_output files ext skip regs)
          (include_line h) = true) ∧
    ((∃ p ∈ regs, p.2 ≠ ([] : List String)) →
      generate_body regs =
        "RTTM_REGISTRATION \x7b\n" ++
        strJoin ((nsGet regs "").map (fun c => c ++ "\n\n")) ++
        strJoin (((sortPairs regs).filter (fun p => !(p.1 == ""))).map
          (fun p =>
            if p.2 ≠ [] then
              "    // " ++ p.1 ++ " 命名空间中的类型\n" ++
                strJoin (p.2.map (fun c => c ++ "\n\n"))
            else "")) ++
        "\x7d\n") ∧
    (sortStr files).Perm files ∧
    (sortStr files).Pairwise (fun a b => strLe a b = true) ∧
    (sortPairs regs).Pairwise (fun a b => strLe a.1 b.1 = true) := by
  refine ⟨?_, ?_, sortLe_perm strLe files, ?_, ?_⟩
  · intro hall
    have hany : regs.any (fun p => !p.2.isEmpty) = false := by
      rw [List.any_eq_false]
      intro p hp
      simp [hall p hp]
    have hbody : generate_body regs = "// 未找到需要反射的类型\n" := by
      simp [generate_body, hany]
    constructor
    · unfold generate_output
      rw [hbody]
    · intro h hmem
      have hmem2 : h ∈ sortStr files :=
        ((sortLe_perm strLe files).mem_iff).mpr hmem
      have hJ := strContains_strJoin_mem include_line h (sortStr files) hmem2
      unfold generate_output generate_prelude
      iterate 10 apply strContains_append_right
      exact strContains_append_left _ _ _ hJ
  · intro hex
    have hany : regs.any (fun p => !p.2.isEmpty) = true := by
      rw [List.any_eq_true]
      obtain ⟨p, hp, hne⟩ := hex
      exact ⟨p, hp, by simpa using hne⟩
    simp only [generate_body]
    rw [if_pos hany]
    congr 1
    congr 1
    · cases hl : regs.lookup "" with
      | none => simp [nsGet, hl, strJoin]
      | some codes =>
        cases codes with
        | nil => simp [nsGet, hl, strJoin]
        | cons c cs => simp [nsGet, hl]
    · exact strJoin_skip_global
        (fun p =>
          if p.2 ≠ [] then
            "    // " ++ p.1 ++ " 命名空间中的类型\n" ++
              strJoin (p.2.map (fun c => c ++ "\n\n"))
          else "")
        (sortPairs regs)
  · have htot : ∀ a b : String, strLe a b = true ∨ strLe b a = true :=
      fun a b => listCharLe_total a.data b.data
    have htr : ∀ a b c : String,
        strLe a b = true → strLe b c = true → strLe a c = true :=
      fun a b c => listCharLe_trans a.data b.data c.data
    exact sortLe_pairwise strLe htot htr files
  · have htot : ∀ a b : String × List String,
        strLe a.1 b.1 = true ∨ strLe b.1 a.1 = true :=
      fun a b => listCharLe_total a.1.data b.1.data
    have htr : ∀ a b c : String × List String,
        strLe a.1 b.1 = true → strLe b.1 c.1 = true → strLe a.1 c.1 = true :=
      fun a b c => listCharLe_trans a.1.data b.1.data c.1.data
    exact sortLe_pairwise (fun a b => strLe a.1 b.1) htot htr regs

/-- Witness for C7: with only an empty global-namespace entry the body
degenerates to the "nothing found" comment and both inclusion lines
survive; with fragments in the global and `NS` namespaces the body has
the documented layout. -/
theorem C7_witness :
    (generate_output ["b.h", "a.h"] [] [] [("", [])] =
      generate_prelude ["b.h", "a.h"] [] [] ++ "// 未找到需要反射的类型\n") ∧
    strContains (generate_output ["b.h", "a.h"] [] [] [("", [])])
      (include_line "a.h") = true ∧
    generate_body [("NS", ["f1"]), ("", ["g1"])] =
      "RTTM_REGISTRATION \x7b\n" ++
      strJoin ((nsGet [("NS", ["f1"]), ("", ["g1"])] "").map
        (fun c => c ++ "\n\n")) ++
      strJoin (((sortPairs [("NS", ["f1"]), ("", ["g1"])]).filter
        (fun p => !(p.1 == ""))).map
        (fun p =>
          if p.2 ≠ [] then
            "    // " ++ p.1 ++ " 命名空间中的类型\n" ++
              strJoin (p.2.map (fun c => c ++ "\n\n"))
          else "")) ++
      "\x7d\n" :=
  ⟨((C7_generate_layout ["b.h", "a.h"] [] [] [("", [])]).1 (by decide)).1,
   ((C7_generate_layout ["b.h", "a.h"] [] [] [("", [])]).1 (by decide)).2
     "a.h" (by decide),
   (C7_generate_layout ["b.h", "a.h"] [] []
     [("NS", ["f1"]), ("", ["g1"])]).2.1 (by decide)⟩
